import Mathlib

/-!
Shallow embedding of the DevTrackr core (TypeScript) in Lean 4.

Conventions used throughout:
* JavaScript `number` values that the code only ever uses integrally
  (HTTP status codes, byte counts, epoch milliseconds, epoch seconds,
  day indices) are embedded as `ℤ` or `ℕ`.
* JavaScript arithmetic that can produce fractions (the weekly
  average) is embedded as exact `ℚ`; `Math.round`, `Math.floor`
  and `Math.ceil` become `jsRound`, `Int.floor` and `Int.ceil`.
  Computations whose observable behaviour depends on IEEE-754 double
  rounding residues (the language-share epsilon reconciliation) are
  not embedded: exact rationals would misrepresent them.
* A `Date` is its epoch-millisecond timestamp (`ℤ`).  The UTC calendar
  day of a timestamp (`new Date(t).toISOString().split('T')[0]`) is its
  floored quotient by `msPerDay`; a day key parsed back with
  `new Date("YYYY-MM-DD")` has timestamp `day * msPerDay`.
  The clock (`Date.now()` / `new Date()`) is passed explicitly as a
  `now` / `today` parameter.
* Thrown exceptions are embedded as `Except` values; the `fetch`
  transport and response headers are embedded as an explicit
  `HttpResponse` record describing the already-received response.
-/

/-- Milliseconds in a UTC calendar day (`1000 * 60 * 60 * 24`). -/
def msPerDay : ℤ := 86400000

/-- JavaScript `Math.round`: round half toward positive infinity. -/
def jsRound (q : ℚ) : ℤ := ⌊q + 1/2⌋

/-- `Math.round(x * 100) / 100`: round to two decimal places. -/
def round2 (q : ℚ) : ℚ := (jsRound (q * 100) : ℚ) / 100

/-- The UTC day key of an epoch-millisecond timestamp, as produced by
`new Date(t).toISOString().split('T')[0]` (embedded as a day index). -/
def dayKey (t : ℤ) : ℤ := t.fdiv msPerDay

/-! ### Error taxonomy (`src/errors.ts`) -/

/-- `DevTrackrErrorCode` from `src/errors.ts`. -/
inductive DevTrackrErrorCode where
  | AUTH_INVALID_TOKEN
  | AUTH_MISSING_TOKEN
  | AUTH_INSUFFICIENT_SCOPES
  | RATE_LIMIT_EXCEEDED
  | NETWORK_ERROR
  | API_ERROR
  | VALIDATION_ERROR
  deriving DecidableEq

/-- `RetryInfo` from `src/errors.ts` (`retryAfter` in milliseconds). -/
structure RetryInfo where
  retryable : Bool
  retryAfter : Option ℤ
  maxRetries : Option ℕ
  deriving DecidableEq

/-- The concrete error class of a thrown `DevTrackrError`
(the `name` field / `instanceof` identity of the TypeScript classes). -/
inductive DTErrorName where
  | devTrackrError
  | authError
  | rateLimitError
  | networkError
  | validationError
  deriving DecidableEq

/-- A constructed `DevTrackrError`.  The subclass-only fields of
`DevTrackrRateLimitError` (`limit`, `remaining`, `resetAt` in epoch ms)
are `none` on every other class.  Human-readable `message` strings are
not modelled. -/
structure DevTrackrError where
  name : DTErrorName
  code : DevTrackrErrorCode
  retryInfo : RetryInfo
  limit : Option ℤ
  remaining : Option ℤ
  resetAt : Option ℤ
  deriving DecidableEq

/-- The `DevTrackrAuthError` constructor: always `retryable: false`. -/
def DevTrackrAuthError (code : DevTrackrErrorCode) : DevTrackrError :=
  { name := .authError
    code := code
    retryInfo := { retryable := false, retryAfter := none, maxRetries := none }
    limit := none
    remaining := none
    resetAt := none }

/-- The `DevTrackrRateLimitError` constructor: `retryAfter` is computed
at construction time as `max(0, resetAt.getTime() - Date.now())`; the
construction-time clock is the explicit `now` parameter and `resetAtMs`
is the `resetAt` date's epoch-millisecond timestamp. -/
def DevTrackrRateLimitError (now limit remaining resetAtMs : ℤ) : DevTrackrError :=
  { name := .rateLimitError
    code := .RATE_LIMIT_EXCEEDED
    retryInfo :=
      { retryable := true
        retryAfter := some (max 0 (resetAtMs - now))
        maxRetries := some 1 }
    limit := some limit
    remaining := some remaining
    resetAt := some resetAtMs }

/-- The `DevTrackrNetworkError` constructor. -/
def DevTrackrNetworkError (code : DevTrackrErrorCode) (retryable : Bool) : DevTrackrError :=
  { name := .networkError
    code := code
    retryInfo :=
      { retryable := retryable
        retryAfter := none
        maxRetries := some (if retryable then 3 else 0) }
    limit := none
    remaining := none
    resetAt := none }

/-- The `DevTrackrValidationError` constructor: never retryable. -/
def DevTrackrValidationError : DevTrackrError :=
  { name := .validationError
    code := .VALIDATION_ERROR
    retryInfo := { retryable := false, retryAfter := none, maxRetries := none }
    limit := none
    remaining := none
    resetAt := none }

/-! ### Rate-limit tracker (`src/utils/rateLimit.ts`) -/

/-- `RateLimitInfo` from `src/utils/rateLimit.ts` (`resetAt` in epoch ms). -/
structure RateLimitInfo where
  limit : ℤ
  remaining : ℤ
  resetAt : ℤ
  resetIn : ℤ
  deriving DecidableEq

/-- `updateRateLimitInfo(limit, remaining, reset)`: the snapshot written
into the module-level `lastRateLimitInfo` slot.  `reset` is epoch
seconds; `now` is the `Date.now()` read inside the function. -/
def updateRateLimitInfo (now limit remaining reset : ℤ) : RateLimitInfo :=
  { limit := limit
    remaining := remaining
    resetAt := reset * 1000
    resetIn := max 0 (reset * 1000 - now) }

/-! ### Request executor (`src/github/fetch.ts`) -/

/-- The three `x-ratelimit-*` headers once parsed to integers. -/
structure RateLimitHeaders where
  limit : ℤ
  remaining : ℤ
  reset : ℤ
  deriving DecidableEq

/-- An already-received HTTP response, as observed by `githubFetch`
after the transport call succeeded.  The three rate-limit headers are
modelled post-`parseInt`: `some n` when the header is present (and
non-empty, hence truthy) with numeric value `n`, else `none`.
`bodyParseOk` records whether `response.json()` would succeed. -/
structure HttpResponse where
  status : ℕ
  rlLimit : Option ℤ
  rlRemaining : Option ℤ
  rlReset : Option ℤ
  bodyParseOk : Bool
  deriving DecidableEq

/-- `parseRateLimitHeaders`: all three headers must be present. -/
def parseRateLimitHeaders (r : HttpResponse) : Option RateLimitHeaders :=
  match r.rlLimit, r.rlRemaining, r.rlReset with
  | some l, some m, some s => some { limit := l, remaining := m, reset := s }
  | _, _, _ => none

/-- `response.ok`: status in the inclusive range 200–299. -/
def responseOk (r : HttpResponse) : Prop := 200 ≤ r.status ∧ r.status ≤ 299

instance (r : HttpResponse) : Decidable (responseOk r) := by
  unfold responseOk; infer_instance

/-- The trailing status checks of `githubFetch`, reached when the
response is neither a 401 nor the quota-exhaustion 403: generic 403 →
insufficient-scope auth error; other non-2xx → API error retryable iff
status ≥ 500; 2xx with a body that fails to parse → non-retryable API
error; otherwise success. -/
def githubFetchTail (resp : HttpResponse) : Except DevTrackrError Unit :=
  if resp.status = 403 then
    .error (DevTrackrAuthError .AUTH_INSUFFICIENT_SCOPES)
  else if ¬ responseOk resp then
    .error (DevTrackrNetworkError .API_ERROR (decide (500 ≤ resp.status)))
  else if ¬ resp.bodyParseOk then
    .error (DevTrackrNetworkError .API_ERROR false)
  else
    .ok ()

/-- The error-classification cascade of `githubFetch`, in source order:
401 first, then 403-with-exhausted-quota, then the remaining checks. -/
def githubFetchResult (now : ℤ) (resp : HttpResponse) : Except DevTrackrError Unit :=
  if resp.status = 401 then
    .error (DevTrackrAuthError .AUTH_INVALID_TOKEN)
  else
    match parseRateLimitHeaders resp with
    | some hd =>
        if resp.status = 403 ∧ hd.remaining = 0 then
          .error (DevTrackrRateLimitError now hd.limit hd.remaining (hd.reset * 1000))
        else githubFetchTail resp
    | none => githubFetchTail resp

/-- `githubFetch`, from the point where the transport call has produced
a response: first `parseRateLimitHeaders` feeds `updateRateLimitInfo`
whenever all three headers are present (leaving the tracker untouched
otherwise), then the status cascade classifies the response.  Returns
the new tracker state together with the thrown error or parsed body. -/
def githubFetch (now : ℤ) (resp : HttpResponse) (tracker : Option RateLimitInfo) :
    Option RateLimitInfo × Except DevTrackrError Unit :=
  let tracker' :=
    match parseRateLimitHeaders resp with
    | some hd => some (updateRateLimitInfo now hd.limit hd.remaining hd.reset)
    | none => tracker
  (tracker', githubFetchResult now resp)

/-! ### Retry driver (`src/utils/retry.ts`) -/

/-- `RetryOptions` with every field filled in (`Required<RetryOptions>`,
the shape of `opts` after merging `DEFAULT_OPTIONS`). -/
structure RetryOptions where
  maxRetries : ℕ
  baseDelay : ℤ
  maxDelay : ℤ
  retryable : DevTrackrError → Bool

/-- The `retryable` predicate of `DEFAULT_OPTIONS`: a `DevTrackrError`
is retried iff its own `retryInfo.retryable` flag is set (anything that
is not a `DevTrackrError` is never retried and is outside this model). -/
def defaultRetryable (e : DevTrackrError) : Bool := e.retryInfo.retryable

/-- `DEFAULT_OPTIONS` from `src/utils/retry.ts`. -/
def defaultOptions : RetryOptions :=
  { maxRetries := 3, baseDelay := 1000, maxDelay := 60000, retryable := defaultRetryable }

/-- `calculateDelay(attempt, baseDelay, maxDelay)`: capped exponential
backoff plus up-to-30% jitter; `rand` is the `Math.random()` draw. -/
def calculateDelay (attempt : ℕ) (baseDelay maxDelay : ℤ) (rand : ℚ) : ℤ :=
  let delay := min (baseDelay * 2 ^ attempt) maxDelay
  ⌊(delay : ℚ) + rand * (3/10) * (delay : ℚ)⌋

/-- The wait chosen for a caught `DevTrackrRateLimitError`:
`error.retryInfo.retryAfter || opts.baseDelay` — JavaScript `||`
falls back to `baseDelay` both when `retryAfter` is `undefined` and
when it is `0` (zero is falsy). -/
def quotaWaitTime (e : DevTrackrError) (baseDelay : ℤ) : ℤ :=
  match e.retryInfo.retryAfter with
  | some t => if t = 0 then baseDelay else t
  | none => baseDelay

/-- The observable trace of one `withRetry` run: how many times the
wrapped operation was invoked, the successive `sleep` durations, and
the final returned value or propagated error. -/
structure RetryTrace (α : Type) where
  calls : ℕ
  sleeps : List ℤ
  result : Except DevTrackrError α

/-- The `withRetry` loop body from attempt number `attempt` on, with
`fuel = opts.maxRetries - attempt` remaining retries.  The operation is
`fn`, indexed by attempt number so that successive invocations may have
different outcomes; `rand` supplies the jitter draw of each attempt.
Mirrors the source: a non-retryable error or an error on the final
attempt propagates at once; a caught `DevTrackrRateLimitError` with a
positive `quotaWaitTime` sleeps exactly that long, anything else sleeps
the jittered exponential backoff, and the loop continues. -/
def withRetryGo (fn : ℕ → Except DevTrackrError α) (opts : RetryOptions)
    (rand : ℕ → ℚ) : ℕ → ℕ → RetryTrace α
  | attempt, fuel =>
    match fn attempt with
    | .ok a => { calls := 1, sleeps := [], result := .ok a }
    | .error e =>
      if opts.retryable e then
        match fuel with
        | 0 => { calls := 1, sleeps := [], result := .error e }
        | fuel' + 1 =>
          let sleepTime :=
            if e.name = .rateLimitError ∧ 0 < quotaWaitTime e opts.baseDelay then
              quotaWaitTime e opts.baseDelay
            else
              calculateDelay attempt opts.baseDelay opts.maxDelay (rand attempt)
          let rest := withRetryGo fn opts rand (attempt + 1) fuel'
          { calls := rest.calls + 1, sleeps := sleepTime :: rest.sleeps, result := rest.result }
      else { calls := 1, sleeps := [], result := .error e }

/-- `withRetry(fn, opts)`: run the loop from attempt 0 with
`opts.maxRetries` retries available. -/
def withRetry (fn : ℕ → Except DevTrackrError α) (opts : RetryOptions)
    (rand : ℕ → ℚ) : RetryTrace α :=
  withRetryGo fn opts rand 0 opts.maxRetries

/-! ### Streak/calendar engine (`src/normalize/activity.ts`)

A commit is represented by its `committedAt` epoch-millisecond
timestamp — the only field `calculateContributionStats` and
`createActivityTimeline` inspect. -/

/-- The distinct active-day keys of a commit list, in the order the
`commitsByDate` map acquires them (`List.dedup` keeps one occurrence of
each key; only the sorted form below is ever consumed). -/
def activeDayKeys (commits : List ℤ) : List ℤ := (commits.map dayKey).dedup

/-- `Array.from(commitsByDate.keys()).sort()`: the distinct active-day
keys in ascending order (lexicographic order on `YYYY-MM-DD` strings of
equal length coincides with day order). -/
def sortedDates (commits : List ℤ) : List ℤ :=
  List.insertionSort (· ≤ ·) (activeDayKeys commits)

/-- The longest-streak scan: `prev` is the previous day key, the list
the remaining sorted keys, `longest` and `temp` the accumulators.  A
day gap of exactly 1 extends the current run; any other gap banks the
run and restarts at 1; the final answer banks the last run. -/
def lsGo : ℤ → List ℤ → ℕ → ℕ → ℕ
  | _, [], longest, temp => max longest temp
  | prev, d :: rest, longest, temp =>
    if d - prev = 1 then lsGo d rest longest (temp + 1)
    else lsGo d rest (max longest temp) 1

/-- The current-streak walk: starting at day `d`, count consecutive
days present in `s` going backward, stopping at the first absent day.
The source `while (true)` loop terminates because each counted day is a
distinct member of the finite key set; `fuel` makes that explicit and
is chosen large enough to never bind (see `csGo_lt_fuel`). -/
def csGo (s : List ℤ) : ℤ → ℕ → ℕ
  | _, 0 => 0
  | d, fuel + 1 => if d ∈ s then csGo s (d - 1) fuel + 1 else 0

/-- `ContributionStats` from `src/types.ts`. -/
structure ContributionStats where
  totalCommits : ℕ
  activeDays : ℕ
  avgCommitsPerWeek : ℚ
  longestStreak : ℕ
  currentStreak : ℕ

/-- `calculateContributionStats(commits)` from
`src/normalize/activity.ts`; `today` is the UTC day key of the
`new Date()` read inside the function (local midnight coincides with
the UTC day boundary under the UTC clock convention of the spec).
`firstDate.getTime()`/`lastDate.getTime()` of a parsed `YYYY-MM-DD`
key are `key * msPerDay`, and the divisor `1000 * 60 * 60 * 24` is
`msPerDay`, so `daysDiff` is `Math.max(1, Math.ceil(...))` of the exact
day difference. -/
def calculateContributionStats (commits : List ℤ) (today : ℤ) : ContributionStats :=
  if commits = [] then
    { totalCommits := 0, activeDays := 0, avgCommitsPerWeek := 0
      longestStreak := 0, currentStreak := 0 }
  else
    match sortedDates commits with
    | [] =>
      { totalCommits := 0, activeDays := 0, avgCommitsPerWeek := 0
        longestStreak := 0, currentStreak := 0 }
    | d0 :: rest =>
      let firstD := d0
      let lastD := rest.getLastD d0
      let daysDiff : ℤ :=
        max 1 ⌈(((lastD - firstD) * msPerDay : ℤ) : ℚ) / ((1000 * 60 * 60 * 24 : ℤ) : ℚ)⌉
      let weeks : ℚ := max 1 ((daysDiff : ℚ) / 7)
      let avgCommitsPerWeek : ℚ := round2 ((commits.length : ℚ) / weeks)
      let longestStreak := lsGo d0 rest 0 1
      let currentStreak := csGo (activeDayKeys commits) today ((activeDayKeys commits).length + 1)
      { totalCommits := commits.length
        activeDays := (activeDayKeys commits).length
        avgCommitsPerWeek := avgCommitsPerWeek
        longestStreak := longestStreak
        currentStreak := currentStreak }

/-- `createActivityTimeline(commits, days)` from
`src/normalize/activity.ts`; `today` is the UTC day key of the
`new Date()` read inside the function.  `endDate` is the last instant
of today (23:59:59.999), `startDate` the first instant of
`today - days`; commits are filtered into that inclusive window,
bucketed by UTC day key, and one `(date, commitCount)` entry is emitted
per day of the window in ascending order, absent days counting 0. -/
def createActivityTimeline (commits : List ℤ) (days : ℕ) (today : ℤ) : List (ℤ × ℕ) :=
  let endMs := today * msPerDay + (msPerDay - 1)
  let startMs := (today - days) * msPerDay
  let filtered := commits.filter (fun t => decide (startMs ≤ t ∧ t ≤ endMs))
  (List.range (days + 1)).map (fun (i : ℕ) =>
    ((today - days + i : ℤ),
      (filtered.filter (fun t => decide (dayKey t = today - days + i))).length))

/-- The consecutive day-key run `s, s+1, ..., s+n-1` (used to state
streak claims about explicit active-day sets). -/
def runList (s : ℤ) (n : ℕ) : List ℤ := (List.range n).map (fun (i : ℕ) => s + i)

/-! ## Theorems -/

/-- C1: a 403 response carrying all three rate-limit headers with
`remaining == 0` makes `githubFetch` throw the quota-exceeded
`DevTrackrRateLimitError`, which is retryable, whose
`retryInfo.retryAfter` is `max(0, resetAt - now)`, whose `resetAt` is
the reset header times 1000 (epoch ms), and which carries the `limit`,
`remaining` and `resetAt` fields. -/
theorem githubFetch_quota_exhausted (now : ℤ) (resp : HttpResponse)
    (tracker : Option RateLimitInfo) (l s : ℤ)
    (h403 : resp.status = 403) (hl : resp.rlLimit = some l)
    (hr : resp.rlRemaining = some 0) (hs : resp.rlReset = some s) :
    (githubFetch now resp tracker).2 =
      .error (DevTrackrRateLimitError now l 0 (s * 1000)) ∧
    (DevTrackrRateLimitError now l 0 (s * 1000)).retryInfo.retryable = true ∧
    (DevTrackrRateLimitError now l 0 (s * 1000)).retryInfo.retryAfter =
      some (max 0 (s * 1000 - now)) ∧
    (DevTrackrRateLimitError now l 0 (s * 1000)).resetAt = some (s * 1000) ∧
    (DevTrackrRateLimitError now l 0 (s * 1000)).limit = some l ∧
    (DevTrackrRateLimitError now l 0 (s * 1000)).remaining = some 0 := by
  refine ⟨?_, rfl, rfl, rfl, rfl, rfl⟩
  simp [githubFetch, githubFetchResult, parseRateLimitHeaders, hl, hr, hs, h403]

/-- Witness for C1 at a concrete response. -/
theorem githubFetch_quota_exhausted_witness :
    (githubFetch 500 ⟨403, some 60, some 0, some 1000, true⟩ none).2 =
      .error (DevTrackrRateLimitError 500 60 0 1000000) ∧
    (DevTrackrRateLimitError 500 60 0 1000000).retryInfo.retryable = true ∧
    (DevTrackrRateLimitError 500 60 0 1000000).retryInfo.retryAfter =
      some (max 0 (1000000 - 500)) ∧
    (DevTrackrRateLimitError 500 60 0 1000000).resetAt = some 1000000 ∧
    (DevTrackrRateLimitError 500 60 0 1000000).limit = some 60 ∧
    (DevTrackrRateLimitError 500 60 0 1000000).remaining = some 0 :=
  githubFetch_quota_exhausted 500 ⟨403, some 60, some 0, some 1000, true⟩ none 60 1000
    rfl rfl rfl rfl

/-- C7: a 401 response, and a 403 response that is not the
quota-exhaustion case (headers present with `remaining == 0`), make
`githubFetch` throw a `DevTrackrAuthError`, never retryable. -/
theorem githubFetch_auth_never_retryable (now : ℤ) (resp : HttpResponse)
    (tracker : Option RateLimitInfo)
    (h : resp.status = 401 ∨
      (resp.status = 403 ∧
        ∀ hd, parseRateLimitHeaders resp = some hd → hd.remaining ≠ 0)) :
    ∃ code, (githubFetch now resp tracker).2 = .error (DevTrackrAuthError code) ∧
      (DevTrackrAuthError code).name = .authError ∧
      (DevTrackrAuthError code).retryInfo.retryable = false := by
  rcases h with h401 | ⟨h403, hno⟩
  · exact ⟨.AUTH_INVALID_TOKEN, by simp [githubFetch, githubFetchResult, h401], rfl, rfl⟩
  · refine ⟨.AUTH_INSUFFICIENT_SCOPES, ?_, rfl, rfl⟩
    have h401 : resp.status ≠ 401 := by omega
    rcases hhd : parseRateLimitHeaders resp with _ | hd
    · simp [githubFetch, githubFetchResult, hhd, h401, githubFetchTail, h403]
    · have : hd.remaining ≠ 0 := hno hd hhd
      simp [githubFetch, githubFetchResult, hhd, h401, githubFetchTail, h403, this]

/-- Witness for C7 at a concrete 401 response (with exhausted quota
headers, which must not matter). -/
theorem githubFetch_auth_never_retryable_witness :
    ∃ code, (githubFetch 500 ⟨401, some 60, some 0, some 1000, true⟩ none).2 =
      .error (DevTrackrAuthError code) ∧
      (DevTrackrAuthError code).name = .authError ∧
      (DevTrackrAuthError code).retryInfo.retryable = false :=
  githubFetch_auth_never_retryable 500 ⟨401, some 60, some 0, some 1000, true⟩ none
    (Or.inl rfl)

/-- C10: whenever all three rate-limit headers are present,
`githubFetch` overwrites the process-wide rate-limit snapshot with
`updateRateLimitInfo`, whatever the status — in particular also on the
responses it then classifies as errors (401, 403, other non-2xx). -/
theorem githubFetch_always_updates_tracker (now : ℤ) (resp : HttpResponse)
    (tracker : Option RateLimitInfo) (l m s : ℤ)
    (hl : resp.rlLimit = some l) (hm : resp.rlRemaining = some m)
    (hs : resp.rlReset = some s) :
    (githubFetch now resp tracker).1 = some (updateRateLimitInfo now l m s) := by
  simp [githubFetch, parseRateLimitHeaders, hl, hm, hs]

/-- Witness for C10 at a concrete 500-status (error-classified)
response. -/
theorem githubFetch_always_updates_tracker_witness :
    (githubFetch 7 ⟨500, some 60, some 41, some 9, false⟩ none).1 =
      some (updateRateLimitInfo 7 60 41 9) :=
  githubFetch_always_updates_tracker 7 ⟨500, some 60, some 41, some 9, false⟩ none
    60 41 9 rfl rfl rfl

/-- C8: an operation that always raises an error the configured
`retryable` predicate rejects is invoked exactly once, no sleep occurs,
and the error propagates unchanged. -/
theorem withRetry_nonretryable_once {α : Type} (fn : ℕ → Except DevTrackrError α)
    (opts : RetryOptions) (rand : ℕ → ℚ) (e : DevTrackrError)
    (hfn : ∀ n, fn n = .error e) (hnr : opts.retryable e = false) :
    withRetry fn opts rand = { calls := 1, sleeps := [], result := .error e } := by
  rw [withRetry, withRetryGo, hfn 0]
  simp [hnr]

/-- Witness for C8: a validation error under the default options. -/
theorem withRetry_nonretryable_once_witness :
    withRetry (fun _ => (.error DevTrackrValidationError : Except DevTrackrError Unit))
      defaultOptions (fun _ => 0) =
      { calls := 1, sleeps := [], result := .error DevTrackrValidationError } :=
  withRetry_nonretryable_once
    (fun _ => (.error DevTrackrValidationError : Except DevTrackrError Unit))
    defaultOptions (fun _ => 0) DevTrackrValidationError (fun _ => rfl) rfl

/-- C9 (counterexample): a quota error *can* carry `retryAfter = 0`
(reset instant already past), and then `withRetry` sleeps `baseDelay`
(1000 ms under the defaults), not the error's `retryAfter` duration —
JavaScript `retryAfter || baseDelay` treats 0 as unset. -/
theorem withRetry_quota_zero_counterexample :
    (DevTrackrRateLimitError 0 60 0 0).retryInfo.retryAfter = some 0 ∧
    (withRetry
        (fun n => if n = 0 then .error (DevTrackrRateLimitError 0 60 0 0)
          else (.ok () : Except DevTrackrError Unit))
        defaultOptions (fun _ => 0)).sleeps = [1000] ∧
    (1000 : ℤ) ≠ 0 := by
  refine ⟨by decide, ?_, by decide⟩
  decide

/-- C9 (amended): when `withRetry` catches a retryable `QuotaExceeded`
error whose `retryAfter` is positive, before the last attempt, it
sleeps exactly `retryAfter` — not an exponential-backoff delay — and
then performs the single permitted next attempt (`retryAfter` zero or
unset falls back to `baseDelay`, per the counterexample). -/
theorem withRetry_quota_wait {α : Type} (fn : ℕ → Except DevTrackrError α)
    (opts : RetryOptions) (rand : ℕ → ℚ) (e : DevTrackrError) (r : ℤ) (a : α)
    (h0 : fn 0 = .error e) (h1 : fn 1 = .ok a)
    (hname : e.name = .rateLimitError)
    (hret : opts.retryable e = true)
    (hra : e.retryInfo.retryAfter = some r) (hr : 0 < r)
    (hmax : 0 < opts.maxRetries) :
    withRetry fn opts rand = { calls := 2, sleeps := [r], result := .ok a } := by
  obtain ⟨k, hk⟩ : ∃ k, opts.maxRetries = k + 1 := ⟨opts.maxRetries - 1, by omega⟩
  have hq : quotaWaitTime e opts.baseDelay = r := by
    have : r ≠ 0 := by omega
    simp [quotaWaitTime, hra, this]
  rw [withRetry, hk, withRetryGo, h0]
  simp only [hret, if_true]
  rw [withRetryGo, h1]
  simp [hname, hq, hr]

/-- Witness for C9 at `retryAfter = 5000`: the single retry is preceded
by a sleep of exactly 5000 ms. -/
theorem withRetry_quota_wait_witness :
    (DevTrackrRateLimitError 0 60 0 5000).retryInfo.retryAfter = some 5000 ∧
    withRetry
        (fun n => if n = 0 then .error (DevTrackrRateLimitError 0 60 0 5000)
          else (.ok () : Except DevTrackrError Unit))
        defaultOptions (fun _ => 0) =
      { calls := 2, sleeps := [5000], result := .ok () } :=
  ⟨by decide,
    withRetry_quota_wait _ defaultOptions (fun _ => 0)
      (DevTrackrRateLimitError 0 60 0 5000) 5000 ()
      rfl rfl rfl rfl (by decide) (by decide) (by decide)⟩

/-- The timeline written out: one entry per offset `i` in the window. -/
theorem createActivityTimeline_eq (commits : List ℤ) (days : ℕ) (today : ℤ) :
    createActivityTimeline commits days today =
      (List.range (days + 1)).map (fun (i : ℕ) =>
        ((today - ↑days + ↑i : ℤ),
          ((commits.filter (fun t => decide ((today - ↑days) * msPerDay ≤ t ∧
              t ≤ today * msPerDay + (msPerDay - 1)))).filter
            (fun t => decide (dayKey t = today - ↑days + ↑i))).length)) := rfl

/-- C3: for every commit list and window `N`, the timeline has exactly
`N + 1` entries, one per calendar day, strictly ascending by date, the
first dated `today − N` (UTC), the last dated `today`, and a day with
no commits is present with count zero. -/
theorem createActivityTimeline_calendar (commits : List ℤ) (days : ℕ) (today : ℤ) :
    (createActivityTimeline commits days today).length = days + 1 ∧
    (createActivityTimeline commits days today).map Prod.fst =
      (List.range (days + 1)).map (fun (i : ℕ) => (today - ↑days + ↑i : ℤ)) ∧
    List.Pairwise (fun p q : ℤ × ℕ => p.1 < q.1)
      (createActivityTimeline commits days today) ∧
    (createActivityTimeline commits days today).head?.map Prod.fst =
      some (today - days) ∧
    (createActivityTimeline commits days today).getLast?.map Prod.fst = some today ∧
    ∀ p ∈ createActivityTimeline commits days today,
      (∀ t ∈ commits, dayKey t ≠ p.1) → p.2 = 0 := by
  have hfst : (createActivityTimeline commits days today).map Prod.fst =
      (List.range (days + 1)).map (fun (i : ℕ) => (today - ↑days + ↑i : ℤ)) := by
    rw [createActivityTimeline_eq, List.map_map]
    rfl
  refine ⟨?_, hfst, ?_, ?_, ?_, ?_⟩
  · rw [createActivityTimeline_eq, List.length_map, List.length_range]
  · rw [createActivityTimeline_eq]
    exact List.Pairwise.map _ (fun a b h => by dsimp only; omega)
      (List.pairwise_lt_range _)
  · rw [← List.head?_map, hfst, List.range_succ_eq_map]
    simp only [List.map_cons, List.head?_cons, Option.some.injEq]
    omega
  · rw [← List.getLast?_map, hfst, List.range_succ, List.map_append]
    simp only [List.map_cons, List.map_nil, List.getLast?_concat, Option.some.injEq]
    omega
  · intro p hp hnone
    rw [createActivityTimeline_eq] at hp
    simp only [List.mem_map, List.mem_range] at hp
    obtain ⟨i, _, hpi⟩ := hp
    have hcount : p.2 = ((commits.filter (fun t => decide ((today - ↑days) * msPerDay ≤ t ∧
        t ≤ today * msPerDay + (msPerDay - 1)))).filter
          (fun t => decide (dayKey t = today - ↑days + ↑i))).length := by
      rw [← hpi]
    have hfst' : p.1 = today - ↑days + ↑i := by rw [← hpi]
    rw [hcount, List.filter_filter]
    have hnil : List.filter (fun a =>
        decide (dayKey a = today - ↑days + ↑i) &&
        decide ((today - ↑days) * msPerDay ≤ a ∧
          a ≤ today * msPerDay + (msPerDay - 1))) commits = [] := by
      apply List.filter_eq_nil_iff.2
      intro t ht
      have hne : dayKey t ≠ p.1 := hnone t ht
      rw [hfst'] at hne
      simp [hne]
    rw [hnil]
    rfl

/-- Witness instance of C3: one commit at epoch 0, window 1, today =
day 1: two entries, and the commit-free day 1 carries count zero. -/
theorem createActivityTimeline_calendar_witness :
    (createActivityTimeline [0] 1 1).length = 2 ∧ ((1 : ℤ), (0 : ℕ)).2 = 0 :=
  ⟨(createActivityTimeline_calendar [0] 1 1).1,
   (createActivityTimeline_calendar [0] 1 1).2.2.2.2.2 ((1 : ℤ), (0 : ℕ))
     (by decide) (by decide)⟩

/-- The current-streak walk never counts more than its fuel. -/
theorem csGo_le (s : List ℤ) : ∀ (fuel : ℕ) (d : ℤ), csGo s d fuel ≤ fuel := by
  intro fuel
  induction fuel with
  | zero => intro d; simp [csGo]
  | succ n ih =>
    intro d
    simp only [csGo]
    split
    · have := ih (d - 1); omega
    · omega

/-- Every day counted by the walk is in the active-day set. -/
theorem csGo_mem (s : List ℤ) :
    ∀ (fuel : ℕ) (d : ℤ) (j : ℕ), j < csGo s d fuel → (d - j) ∈ s := by
  intro fuel
  induction fuel with
  | zero => intro d j h; simp [csGo] at h
  | succ n ih =>
    intro d j h
    simp only [csGo] at h
    split at h
    · rename_i hd
      match j with
      | 0 => simpa using hd
      | k + 1 =>
        have hk : k < csGo s (d - 1) n := by omega
        have := ih (d - 1) k hk
        have hcast : (d - (↑(k + 1)) : ℤ) = (d - 1) - ↑k := by push_cast; ring
        rw [hcast]
        exact this
    · omega

/-- When the walk halts with fuel to spare, the next day back is absent. -/
theorem csGo_stop (s : List ℤ) :
    ∀ (fuel : ℕ) (d : ℤ), csGo s d fuel < fuel → (d - (csGo s d fuel : ℕ)) ∉ s := by
  intro fuel
  induction fuel with
  | zero => intro d h; omega
  | succ n ih =>
    intro d h
    by_cases hd : d ∈ s
    · simp only [csGo, if_pos hd] at h ⊢
      have hlt : csGo s (d - 1) n < n := by omega
      have := ih (d - 1) hlt
      have hcast : (d - (↑(csGo s (d - 1) n + 1)) : ℤ) = (d - 1) - ↑(csGo s (d - 1) n) := by
        push_cast; ring
      rw [hcast]
      exact this
    · simp only [csGo, if_neg hd]
      simpa using hd

/-- Over a duplicate-free set, `s.length + 1` fuel never binds: the
counted days are distinct members of `s`. -/
theorem csGo_lt_fuel (s : List ℤ) (d : ℤ) :
    csGo s d (s.length + 1) ≤ s.length := by
  by_contra hgt
  have heq : csGo s d (s.length + 1) = s.length + 1 := by
    have := csGo_le s (s.length + 1) d
    omega
  have hmem : ∀ j < s.length + 1, ((d - j : ℤ)) ∈ s := by
    intro j hj
    exact csGo_mem s (s.length + 1) d j (by omega)
  have hsub : ((List.range (s.length + 1)).map (fun (j : ℕ) => (d - j : ℤ))) ⊆ s := by
    intro x hx
    simp only [List.mem_map, List.mem_range] at hx
    obtain ⟨j, hj, rfl⟩ := hx
    exact hmem j hj
  have hinj : Function.Injective (fun (j : ℕ) => (d - j : ℤ)) := by
    intro a b hab
    simp only at hab
    omega
  have hnodup : ((List.range (s.length + 1)).map (fun (j : ℕ) => (d - j : ℤ))).Nodup :=
    (List.nodup_range _).map hinj
  have := (List.subperm_of_subset hnodup hsub).length_le
  simp only [List.length_map, List.length_range] at this
  omega

/-- Membership in the distinct active-day keys is membership among the
commit day keys. -/
theorem mem_activeDayKeys (commits : List ℤ) (x : ℤ) :
    x ∈ activeDayKeys commits ↔ x ∈ commits.map dayKey := List.mem_dedup

/-- The sorted date list is nonempty whenever the commit list is. -/
theorem sortedDates_ne_nil (commits : List ℤ) (h : commits ≠ []) :
    sortedDates commits ≠ [] := by
  intro heq
  have hperm := List.perm_insertionSort (· ≤ ·) (activeDayKeys commits)
  rw [sortedDates] at heq
  rw [heq] at hperm
  have h1 : activeDayKeys commits = [] := hperm.symm.eq_nil
  rw [activeDayKeys, List.dedup_eq_nil, List.map_eq_nil_iff] at h1
  exact h h1

/-- `calculateContributionStats` written out on a nonempty commit list
whose sorted dates are `d0 :: rest`. -/
theorem calculateContributionStats_eq (commits : List ℤ) (today d0 : ℤ)
    (rest : List ℤ) (h : commits ≠ []) (hs : sortedDates commits = d0 :: rest) :
    calculateContributionStats commits today =
      { totalCommits := commits.length
        activeDays := (activeDayKeys commits).length
        avgCommitsPerWeek := round2 ((commits.length : ℚ) /
          max 1 (((max 1 ⌈(((rest.getLastD d0 - d0) * msPerDay : ℤ) : ℚ) /
            ((1000 * 60 * 60 * 24 : ℤ) : ℚ)⌉ : ℤ) : ℚ) / 7))
        longestStreak := lsGo d0 rest 0 1
        currentStreak :=
          csGo (activeDayKeys commits) today ((activeDayKeys commits).length + 1) } := by
  rw [calculateContributionStats, if_neg h, hs]

/-- C6: `currentStreak` counts the consecutive days walking backward
from today's UTC date that all carry activity, stopping at the first
missing day — in particular it is 0 when today has no activity. -/
theorem calculateContributionStats_currentStreak (commits : List ℤ) (today : ℤ) :
    (∀ j < (calculateContributionStats commits today).currentStreak,
       ((today - j : ℤ)) ∈ commits.map dayKey) ∧
    (today - ((calculateContributionStats commits today).currentStreak : ℤ)) ∉
      commits.map dayKey := by
  by_cases h : commits = []
  · subst h
    refine ⟨fun j hj => ?_, by simp [calculateContributionStats]⟩
    simp [calculateContributionStats] at hj
  · rcases hsd : sortedDates commits with _ | ⟨d0, rest⟩
    · exact absurd hsd (sortedDates_ne_nil commits h)
    rw [calculateContributionStats_eq commits today d0 rest h hsd]
    dsimp only
    constructor
    · intro j hj
      have := csGo_mem (activeDayKeys commits)
        ((activeDayKeys commits).length + 1) today j hj
      rwa [mem_activeDayKeys] at this
    · have hle := csGo_lt_fuel (activeDayKeys commits) today
      have hstop := csGo_stop (activeDayKeys commits)
        ((activeDayKeys commits).length + 1) today (by omega)
      rwa [mem_activeDayKeys] at hstop

/-- A day key scaled to its midnight timestamp round-trips. -/
theorem dayKey_mul (t : ℤ) : dayKey (t * msPerDay) = t := by
  rw [dayKey]
  exact Int.mul_fdiv_cancel t (by norm_num [msPerDay])

/-- Peeling one day off a run. -/
theorem runList_succ (s : ℤ) (n : ℕ) : runList s (n + 1) = s :: runList (s + 1) n := by
  rw [runList, List.range_succ_eq_map, List.map_cons, List.map_map]
  simp only [Nat.cast_zero, add_zero]
  congr 1
  apply List.map_congr_left
  intro x _
  simp only [Function.comp_apply]
  push_cast
  ring

/-- Runs are strictly ascending. -/
theorem runList_pairwise_lt (s : ℤ) (n : ℕ) :
    List.Pairwise (· < ·) (runList s n) := by
  rw [runList]
  exact List.Pairwise.map _ (fun i j h => by omega) (List.pairwise_lt_range n)

/-- Membership in a run. -/
theorem mem_runList {x s : ℤ} {n : ℕ} :
    x ∈ runList s n ↔ ∃ i : ℕ, i < n ∧ x = s + i := by
  simp only [runList, List.mem_map, List.mem_range]
  constructor
  · rintro ⟨i, hi, rfl⟩; exact ⟨i, hi, rfl⟩
  · rintro ⟨i, hi, rfl⟩; exact ⟨i, hi, rfl⟩

/-- The streak scan absorbs a full consecutive run into the current
run counter. -/
theorem lsGo_run : ∀ (k : ℕ) (prev : ℤ) (rest : List ℤ) (L T : ℕ),
    lsGo prev (runList (prev + 1) k ++ rest) L T = lsGo (prev + k) rest L (T + k) := by
  intro k
  induction k with
  | zero => intro prev rest L T; simp [runList]
  | succ k ih =>
    intro prev rest L T
    rw [runList_succ, List.cons_append]
    show lsGo prev ((prev + 1) :: (runList (prev + 1 + 1) k ++ rest)) L T = _
    rw [lsGo, if_pos (by ring)]
    rw [ih (prev + 1) rest L (T + 1)]
    have h1 : prev + 1 + (k : ℤ) = prev + ((k : ℕ) + 1 : ℕ) := by push_cast; ring
    have h2 : T + 1 + k = T + (k + 1) := by omega
    rw [h1, h2]

/-- For a strictly ascending day-key list, scaling to midnight
timestamps and running the bucketing/sorting pipeline returns the list
itself. -/
theorem sortedDates_of_pairwise (l : List ℤ) (hpw : List.Pairwise (· < ·) l) :
    sortedDates (l.map (· * msPerDay)) = l := by
  rw [sortedDates, activeDayKeys, List.map_map]
  have hmap : List.map (dayKey ∘ (· * msPerDay)) l = l := by
    have : ∀ x ∈ l, (dayKey ∘ (· * msPerDay)) x = id x := fun x _ => dayKey_mul x
    rw [List.map_congr_left this, List.map_id]
  rw [hmap, List.Nodup.dedup (hpw.imp fun h => ne_of_lt h)]
  exact List.Sorted.insertionSort_eq (hpw.imp fun h => le_of_lt h)

/-- C5: `longestStreak` of two consecutive runs of lengths `a` and `b`
separated by one gap of `g > 1` days is `max a b`; zero or one active
day yields a streak equal to the active-day count. -/
theorem calculateContributionStats_longestStreak (today s1 : ℤ) (a b g : ℕ)
    (ha : 1 ≤ a) (hb : 1 ≤ b) (hg : 2 ≤ g) :
    (calculateContributionStats
        ((runList s1 a ++ runList (s1 + a - 1 + g) b).map (· * msPerDay))
        today).longestStreak = max a b ∧
    (calculateContributionStats [] today).longestStreak = 0 ∧
    ∀ t : ℤ, (calculateContributionStats [t * msPerDay] today).longestStreak = 1 := by
  obtain ⟨k, rfl⟩ : ∃ k, a = k + 1 := ⟨a - 1, by omega⟩
  obtain ⟨m, rfl⟩ : ∃ m, b = m + 1 := ⟨b - 1, by omega⟩
  refine ⟨?_, by simp [calculateContributionStats], ?_⟩
  · have hpw : List.Pairwise (· < ·)
        (runList s1 (k + 1) ++ runList (s1 + ↑(k + 1) - 1 + ↑g) (m + 1)) := by
      rw [List.pairwise_append]
      refine ⟨runList_pairwise_lt _ _, runList_pairwise_lt _ _, ?_⟩
      intro x hx y hy
      rw [mem_runList] at hx hy
      obtain ⟨i, hi, rfl⟩ := hx
      obtain ⟨j, hj, rfl⟩ := hy
      push_cast
      omega
    have hsd := sortedDates_of_pairwise _ hpw
    have hne : (runList s1 (k + 1) ++
        runList (s1 + ↑(k + 1) - 1 + ↑g) (m + 1)).map (· * msPerDay) ≠ [] := by
      simp [runList]
    have hsd' : sortedDates ((runList s1 (k + 1) ++
        runList (s1 + ↑(k + 1) - 1 + ↑g) (m + 1)).map (· * msPerDay)) =
        s1 :: (runList (s1 + 1) k ++ runList (s1 + ↑(k + 1) - 1 + ↑g) (m + 1)) := by
      rw [hsd, runList_succ, List.cons_append]
    rw [calculateContributionStats_eq _ today s1 _ hne hsd']
    dsimp only
    rw [lsGo_run k s1 (runList (s1 + ↑(k + 1) - 1 + ↑g) (m + 1)) 0 1]
    rw [runList_succ]
    rw [lsGo, if_neg (by push_cast; omega)]
    have habs := lsGo_run m (s1 + ↑(k + 1) - 1 + ↑g) [] (max 0 (1 + k)) 1
    rw [List.append_nil] at habs
    rw [habs, lsGo]
    omega
  · intro t
    have hsd := sortedDates_of_pairwise [t] (by simp)
    simp only [List.map_cons, List.map_nil] at hsd
    rw [calculateContributionStats_eq [t * msPerDay] today t [] (by simp) hsd]
    dsimp only
    simp [lsGo]

/-- Witness for C5: runs of length 2 and 1 with a gap of 4 days (the
spec's 2023-01-01/01-02 plus 2023-01-06 scenario, re-anchored at day
0): longest streak 2. -/
theorem calculateContributionStats_longestStreak_witness :
    (calculateContributionStats
        ((runList 0 2 ++ runList ((0 : ℤ) + (2 : ℕ) - 1 + (4 : ℕ)) 1).map (· * msPerDay))
        100).longestStreak = max 2 1 :=
  (calculateContributionStats_longestStreak 100 0 2 1 4
    (by norm_num) (by norm_num) (by norm_num)).1

/-- Membership in the sorted date list is membership among the commit
day keys. -/
theorem mem_sortedDates (commits : List ℤ) (x : ℤ) :
    x ∈ sortedDates commits ↔ x ∈ commits.map dayKey :=
  ((List.perm_insertionSort (· ≤ ·) (activeDayKeys commits)).mem_iff).trans
    (mem_activeDayKeys commits x)

/-- In a sorted list, every element is at most the last one. -/
theorem sorted_le_getLastD : ∀ (rest : List ℤ) (d0 x : ℤ),
    (d0 :: rest).Sorted (· ≤ ·) → x ∈ d0 :: rest → x ≤ rest.getLastD d0 := by
  intro rest
  induction rest with
  | nil =>
    intro d0 x _ hx
    simp only [List.mem_singleton] at hx
    simp [hx, List.getLastD]
  | cons r rs ih =>
    intro d0 x hsort hx
    have hsort' : (r :: rs).Sorted (· ≤ ·) := (List.sorted_cons.1 hsort).2
    have hd0r : d0 ≤ r := (List.sorted_cons.1 hsort).1 r (by simp)
    simp only [List.getLastD_cons]
    rcases List.mem_cons.1 hx with rfl | hx'
    · exact le_trans hd0r (ih r r hsort' (by simp))
    · exact ih r x hsort' hx'

/-- C2 (amended): for a nonempty commit list with earliest and latest
active day keys `lo` and `hi`, `avgCommitsPerWeek` is `totalCommits`
divided by `max(1, max(1, hi - lo) / 7)` — a *fractional* number of
weeks with the day span floored at one day (not a whole-week
`ceil((hi - lo) / 7)` denominator) — rounded to two decimal places. -/
theorem calculateContributionStats_avg (commits : List ℤ) (today lo hi : ℤ)
    (hne : commits ≠ [])
    (hlo : lo ∈ commits.map dayKey) (hlo2 : ∀ d ∈ commits.map dayKey, lo ≤ d)
    (hhi : hi ∈ commits.map dayKey) (hhi2 : ∀ d ∈ commits.map dayKey, d ≤ hi) :
    (calculateContributionStats commits today).avgCommitsPerWeek =
      round2 ((commits.length : ℚ) / max 1 ((max 1 ((hi : ℚ) - lo)) / 7)) := by
  rcases hsd : sortedDates commits with _ | ⟨d0, rest⟩
  · exact absurd hsd (sortedDates_ne_nil commits hne)
  have hsort : (d0 :: rest).Sorted (· ≤ ·) := by
    rw [← hsd, sortedDates]
    exact List.sorted_insertionSort _ _
  have hmem : ∀ x, x ∈ d0 :: rest ↔ x ∈ commits.map dayKey := by
    intro x
    rw [← hsd, mem_sortedDates]
  have hd0 : d0 = lo := by
    refine le_antisymm ?_ (hlo2 d0 ((hmem d0).1 (by simp)))
    rcases List.mem_cons.1 ((hmem lo).2 hlo) with rfl | hlo'
    · exact le_refl _
    · exact (List.sorted_cons.1 hsort).1 lo hlo'
  have hlast : rest.getLastD d0 = hi := by
    refine le_antisymm (hhi2 _ ((hmem _).1 (List.getLastD_mem_cons _ _))) ?_
    exact sorted_le_getLastD rest d0 hi hsort ((hmem hi).2 hhi)
  rw [calculateContributionStats_eq commits today d0 rest hne hsd]
  dsimp only
  rw [hlast, hd0]
  have h1 : (((hi - lo) * msPerDay : ℤ) : ℚ) / ((1000 * 60 * 60 * 24 : ℤ) : ℚ) =
      ((hi - lo : ℤ) : ℚ) := by
    rw [msPerDay]
    push_cast
    rw [mul_div_assoc]
    norm_num
  rw [h1, Int.ceil_intCast]
  have h2 : ((max 1 (hi - lo) : ℤ) : ℚ) = max 1 ((hi : ℚ) - lo) := by
    push_cast
    rfl
  rw [h2]

/-- Witness for C2's amended statement: commits on days 0 and 10. -/
theorem calculateContributionStats_avg_witness :
    (calculateContributionStats [0, 10 * msPerDay] 0).avgCommitsPerWeek =
      round2 (((List.length [(0 : ℤ), 10 * msPerDay] : ℕ) : ℚ) /
        max 1 ((max 1 ((10 : ℚ) - 0)) / 7)) :=
  calculateContributionStats_avg [0, 10 * msPerDay] 0 0 10
    (by decide) (by decide) (by decide) (by decide) (by decide)

/-- C2 (counterexample): for commits on days 0 and 10 the code returns
`2 / (10/7)` rounded = 1.4, while the claimed formula
`totalCommits / max(1, ceil((lastActiveDay - firstActiveDay) / 7))`
gives `2 / 2 = 1`. -/
theorem calculateContributionStats_avg_counterexample :
    (calculateContributionStats [0, 10 * msPerDay] 0).avgCommitsPerWeek = 7/5 ∧
    ((2 : ℚ) / (max 1 (⌈(((10 : ℚ) - 0) / 7 : ℚ)⌉ : ℚ))) = 1 ∧
    (7/5 : ℚ) ≠ 1 := by
  refine ⟨?_, ?_, by norm_num⟩
  · rw [calculateContributionStats_avg_witness]
    rw [show (max 1 ((10 : ℚ) - 0)) = 10 by norm_num]
    rw [show (max 1 ((10 : ℚ) / 7)) = 10 / 7 by rw [max_eq_right]; norm_num]
    rw [round2, jsRound]
    norm_num
  · rw [show (⌈(((10 : ℚ) - 0) / 7 : ℚ)⌉ : ℤ) = 2 by rw [Int.ceil_eq_iff]; norm_num]
    rw [show (max 1 ((2 : ℤ) : ℚ)) = 2 by norm_num]
    norm_num
